import Mathlib

/-!
Verification development for the study-planner core engine:
task scoring (`scoreTask` / `scoreTasks`), lane scheduling (`scheduleTasks`),
unit mastery (`calculateUnitMastery`) and readiness pacing (`calculatePacing`).

Numbers are modelled as rationals (`ℚ`), timestamps as integer milliseconds
(`ℤ`); `new Date(s).getTime()` on an already-numeric field is the identity.
`Math.exp` is transcendental, so it is supplied as a function field of the
scoring context; every result below holds for an arbitrary such function
unless the statement fixes a concrete one.
-/

namespace Planner

/-- JavaScript `Math.round`: round half toward positive infinity. -/
def jsRound (x : ℚ) : ℤ := ⌊x + 1/2⌋

/-- Rounding a value to two decimal places, `Math.round(x * 100) / 100`. -/
def round2 (x : ℚ) : ℚ := (jsRound (x * 100) : ℚ) / 100

/-- JavaScript `Math.ceil` on a rational. -/
def jsCeil (x : ℚ) : ℤ := ⌈x⌉

/-- JavaScript `Math.floor` on a rational. -/
def jsFloor (x : ℚ) : ℤ := ⌊x⌋

/-- Milliseconds per day, `1000 * 60 * 60 * 24`. -/
def msPerDay : ℚ := 86400000

/-- Task type union `'assignment_work' | 'exam_build' | 'timed_practice'`. -/
inductive TaskType
  | assignment_work
  | exam_build
  | timed_practice
deriving DecidableEq, Repr

/-- The `Task` interface of the scoring module (`scheduler.ts`). -/
structure Task where
  id : String
  title : String
  task_type : TaskType
  due_date : Option ℤ
  estimated_minutes : ℚ
  course_unit_id : Option String
  project_id : Option String
deriving DecidableEq, Repr

/-- The `CourseUnit` interface of the scoring module. -/
structure CourseUnit where
  id : String
  course_id : String
  mastery_score : ℚ
  last_studied_at : Option ℤ
deriving DecidableEq, Repr

/-- The `Course` interface of the scoring module. -/
structure Course where
  id : String
  exam_date : ℤ
deriving DecidableEq, Repr

/-- The `ScoringContext`: unit and course lookup maps (`Map.get` returning
`undefined` becomes `Option`), the current date, and `Math.exp`. -/
structure ScoringContext where
  units : String → Option CourseUnit
  courses : String → Option Course
  currentDate : ℤ
  exp : ℚ → ℚ

/-- The `ScoredTask` interface: a task plus its four sub-scores and total. -/
structure ScoredTask where
  id : String
  title : String
  task_type : TaskType
  due_date : Option ℤ
  estimated_minutes : ℚ
  course_unit_id : Option String
  project_id : Option String
  totalScore : ℚ
  urgencyScore : ℚ
  importanceScore : ℚ
  weaknessBonus : ℚ
  recencyBonus : ℚ
deriving DecidableEq, Repr

/-- `calculateUrgency` (scheduler.ts): 10 without a due date, otherwise
`min(100, max(0, 100 * exp(-daysUntilDue / 7)))` with
`daysUntilDue = max(0, ceil((due - now) / msPerDay))`. -/
def calculateUrgency (ctx : ScoringContext) (dueDate : Option ℤ) : ℚ :=
  match dueDate with
  | none => 10
  | some due =>
    let daysUntilDue : ℤ := max 0 (jsCeil (((due - ctx.currentDate : ℤ) : ℚ) / msPerDay))
    let urgency : ℚ := 100 * ctx.exp (-(daysUntilDue : ℚ) / 7)
    min 100 (max 0 urgency)

/-- Base importance by task type (the `baseImportance` record). -/
def baseImportance : TaskType → ℚ
  | .assignment_work => 70
  | .exam_build => 50
  | .timed_practice => 30

/-- `calculateImportance` (scheduler.ts): base importance by type, plus an
exam-proximity bonus `30 * (1 - daysUntilExam / 30)` when the task's unit's
course exam is within 30 days; clamped to [0, 100]. -/
def calculateImportance (task : Task) (ctx : ScoringContext) : ℚ :=
  let base := baseImportance task.task_type
  let importance :=
    match task.course_unit_id with
    | none => base
    | some uid =>
      match ctx.units uid with
      | none => base
      | some unit =>
        match ctx.courses unit.course_id with
        | none => base
        | some course =>
          let daysUntilExam : ℤ :=
            jsCeil (((course.exam_date - ctx.currentDate : ℤ) : ℚ) / msPerDay)
          if daysUntilExam ≤ 30 ∧ 0 < daysUntilExam then
            base + 30 * (1 - (daysUntilExam : ℚ) / 30)
          else base
  min 100 (max 0 importance)

/-- `calculateWeaknessBonus` (scheduler.ts): 0 without a unit (or with a
missing unit), else a step function of the unit's mastery score. -/
def calculateWeaknessBonus (task : Task) (ctx : ScoringContext) : ℚ :=
  match task.course_unit_id with
  | none => 0
  | some uid =>
    match ctx.units uid with
    | none => 0
    | some unit =>
      let mastery := unit.mastery_score
      if mastery < 30 then 50
      else if mastery < 50 then 30
      else if mastery < 70 then 15
      else 0

/-- Days since a unit was last studied:
`Math.floor((now - lastStudied) / msPerDay)`. -/
def daysSinceStudied (currentDate lastStudied : ℤ) : ℤ :=
  jsFloor (((currentDate - lastStudied : ℤ) : ℚ) / msPerDay)

/-- `calculateRecencyBonus` (scheduler.ts): 15 without a unit; 25 when the
unit is missing from the map or never studied; otherwise 0 below 2 days,
`10 + (daysSince - 2) * 2` below 7 days, 25 from 7 days on. -/
def calculateRecencyBonus (task : Task) (ctx : ScoringContext) : ℚ :=
  match task.course_unit_id with
  | none => 15
  | some uid =>
    match ctx.units uid with
    | none => 25
    | some unit =>
      match unit.last_studied_at with
      | none => 25
      | some lastStudied =>
        let days := daysSinceStudied ctx.currentDate lastStudied
        if days < 2 then 0
        else if days < 7 then 10 + ((days : ℚ) - 2) * 2
        else 25

/-- `scoreTask` (scheduler.ts): weighted total of the four raw sub-scores,
with the total and each returned sub-score rounded to 2 decimals. -/
def scoreTask (task : Task) (ctx : ScoringContext) : ScoredTask :=
  let urgencyScore := calculateUrgency ctx task.due_date
  let importanceScore := calculateImportance task ctx
  let weaknessBonus := calculateWeaknessBonus task ctx
  let recencyBonus := calculateRecencyBonus task ctx
  let totalScore :=
    urgencyScore * 0.4 + importanceScore * 0.35 +
      weaknessBonus * 0.15 + recencyBonus * 0.1
  { id := task.id
    title := task.title
    task_type := task.task_type
    due_date := task.due_date
    estimated_minutes := task.estimated_minutes
    course_unit_id := task.course_unit_id
    project_id := task.project_id
    totalScore := round2 totalScore
    urgencyScore := round2 urgencyScore
    importanceScore := round2 importanceScore
    weaknessBonus := round2 weaknessBonus
    recencyBonus := round2 recencyBonus }

/-- Descending order on total score: the comparator
`(a, b) => b.totalScore - a.totalScore` orders `a` before `b`
when `b.totalScore ≤ a.totalScore`. -/
def scoreDesc (a b : ScoredTask) : Prop := b.totalScore ≤ a.totalScore

instance : DecidableRel scoreDesc :=
  fun a b => inferInstanceAs (Decidable (b.totalScore ≤ a.totalScore))

instance : IsTotal ScoredTask scoreDesc :=
  ⟨fun a b => le_total b.totalScore a.totalScore⟩

instance : IsTrans ScoredTask scoreDesc :=
  ⟨fun _ _ _ h1 h2 => le_trans h2 h1⟩

/-- `scoreTasks` (scheduler.ts): score every task, then sort descending by
total score. `Array.prototype.sort` is stable (ECMA-262), so it is modelled
as a stable insertion sort. -/
def scoreTasks (tasks : List Task) (ctx : ScoringContext) : List ScoredTask :=
  List.insertionSort scoreDesc (tasks.map (fun t => scoreTask t ctx))

/-- A lane of the daily plan (`PlannedLane`). -/
structure PlannedLane where
  name : String
  displayName : String
  tasks : List ScoredTask
  totalMinutes : ℚ
  targetMinutes : ℚ
deriving DecidableEq, Repr

/-- The `DailyPlan` (the wall-clock `generatedAt` timestamp is the only
field not modelled). -/
structure DailyPlan where
  lanes : List PlannedLane
  totalMinutes : ℚ
deriving DecidableEq, Repr

/-- The three lane budgets returned by `calculateTimeBudgets`. -/
structure TimeBudgets where
  dueSoon : ℚ
  examBuild : ℚ
  timedPractice : ℚ
deriving DecidableEq, Repr

/-- `calculateTimeBudgets` (scheduler.ts): 65% / 25% / 10% of the daily
target, each `Math.round`ed. -/
def calculateTimeBudgets (targetStudyMinutesPerDay : ℚ) : TimeBudgets :=
  { dueSoon := (jsRound (targetStudyMinutesPerDay * 0.65) : ℚ)
    examBuild := (jsRound (targetStudyMinutesPerDay * 0.25) : ℚ)
    timedPractice := (jsRound (targetStudyMinutesPerDay * 0.10) : ℚ) }

/-- One lane-filling loop of `scheduleTasks`: walk the candidate list; stop
once the lane holds 5 tasks; admit a task only when its minutes keep the
running total within the limit (`targetMinutes * 1.2`), otherwise skip it. -/
def fillLane (limit : ℚ) :
    List ScoredTask → List ScoredTask → ℚ → List ScoredTask × ℚ
  | [], acc, tot => (acc, tot)
  | t :: ts, acc, tot =>
    if 5 ≤ acc.length then (acc, tot)
    else if tot + t.estimated_minutes ≤ limit then
      fillLane limit ts (acc ++ [t]) (tot + t.estimated_minutes)
    else fillLane limit ts acc tot

/-- The Due-Soon overflow loop of `scheduleTasks`: each urgent exam-build
task that fits the budget is pushed into the lane and removed
(`splice(indexOf(task), 1)`, i.e. erase the first occurrence) from the
exam-build pool. There is no length check inside this loop; the candidate
list was already truncated to the free slots. -/
def overflowFill (limit : ℚ) :
    List ScoredTask → List ScoredTask → ℚ → List ScoredTask →
      List ScoredTask × ℚ × List ScoredTask
  | [], acc, tot, pool => (acc, tot, pool)
  | t :: ts, acc, tot, pool =>
    if tot + t.estimated_minutes ≤ limit then
      overflowFill limit ts (acc ++ [t]) (tot + t.estimated_minutes) (pool.erase t)
    else overflowFill limit ts acc tot pool

/-- Descending order on weakness bonus, the comparator
`(a, b) => b.weaknessBonus - a.weaknessBonus` of the Exam-Build re-sort. -/
def weaknessDesc (a b : ScoredTask) : Prop := b.weaknessBonus ≤ a.weaknessBonus

instance : DecidableRel weaknessDesc :=
  fun a b => inferInstanceAs (Decidable (b.weaknessBonus ≤ a.weaknessBonus))

instance : IsTotal ScoredTask weaknessDesc :=
  ⟨fun a b => le_total b.weaknessBonus a.weaknessBonus⟩

instance : IsTrans ScoredTask weaknessDesc :=
  ⟨fun _ _ _ h1 h2 => le_trans h2 h1⟩

/-- `scheduleTasks` (scheduler.ts): partition the scored tasks by type,
fill the Due-Soon lane with assignment tasks, top it up with high-urgency
exam-build tasks (removing those from the pool), fill the Exam-Build lane
from the remaining pool re-sorted by weakness bonus, and fill the
Timed-Practice lane; each fill is capped at 5 tasks and 1.2× budget. -/
def scheduleTasks (scoredTasks : List ScoredTask)
    (targetStudyMinutesPerDay : ℚ) : DailyPlan :=
  let budgets := calculateTimeBudgets targetStudyMinutesPerDay
  let assignmentTasks :=
    scoredTasks.filter (fun t => decide (t.task_type = TaskType.assignment_work))
  let examBuildTasks :=
    scoredTasks.filter (fun t => decide (t.task_type = TaskType.exam_build))
  let timedPracticeTasks :=
    scoredTasks.filter (fun t => decide (t.task_type = TaskType.timed_practice))
  let ds1 := fillLane (budgets.dueSoon * 1.2) assignmentTasks [] 0
  let afterOverflow :=
    if ds1.1.length < 5 then
      let urgentExamTasks :=
        (examBuildTasks.filter (fun t => decide ((50 : ℚ) < t.urgencyScore))).take
          (5 - ds1.1.length)
      overflowFill (budgets.dueSoon * 1.2) urgentExamTasks ds1.1 ds1.2 examBuildTasks
    else (ds1.1, ds1.2, examBuildTasks)
  let sortedExamBuild := List.insertionSort weaknessDesc afterOverflow.2.2
  let eb := fillLane (budgets.examBuild * 1.2) sortedExamBuild [] 0
  let tp := fillLane (budgets.timedPractice * 1.2) timedPracticeTasks [] 0
  { lanes :=
      [ { name := "due_soon", displayName := "Due Soon",
          tasks := afterOverflow.1, totalMinutes := afterOverflow.2.1,
          targetMinutes := budgets.dueSoon }
      , { name := "exam_build", displayName := "Exam Build",
          tasks := eb.1, totalMinutes := eb.2,
          targetMinutes := budgets.examBuild }
      , { name := "timed_practice", displayName := "Timed Practice",
          tasks := tp.1, totalMinutes := tp.2,
          targetMinutes := budgets.timedPractice } ]
    totalMinutes := afterOverflow.2.1 + eb.2 + tp.2 }

end Planner

namespace Analytics

/-- A task row fetched for a unit in `calculateUnitMastery` (`mastery.ts`):
only `status` matters to the computation. -/
structure TaskRecord where
  id : String
  status : String
deriving DecidableEq, Repr

/-- A question-attempt row fetched for a unit in `calculateUnitMastery`. -/
structure AttemptRecord where
  id : String
  correct : Bool
deriving DecidableEq, Repr

/-- Task completion rate of `calculateUnitMastery`:
`(completed / total) * 100`, `0` with no tasks. -/
def taskCompletionRate (tasks : List TaskRecord) : ℚ :=
  if 0 < tasks.length then
    ((tasks.filter (fun t => decide (t.status = "completed"))).length : ℚ)
      / (tasks.length : ℚ) * 100
  else 0

/-- Question accuracy of `calculateUnitMastery`:
`(correct / total) * 100`, `0` with no attempts. -/
def questionAccuracy (attempts : List AttemptRecord) : ℚ :=
  if 0 < attempts.length then
    ((attempts.filter (fun a => a.correct)).length : ℚ)
      / (attempts.length : ℚ) * 100
  else 0

/-- `calculateUnitMastery` (mastery.ts), with the two database fetches
replaced by the fetched row lists: weighted 40/60 combination when both
signals exist, the single signal unscaled when only one exists, 0 when
neither does; clamped to [0, 100] and `Math.round`ed. -/
def calculateUnitMastery (tasks : List TaskRecord)
    (attempts : List AttemptRecord) : ℤ :=
  let tcr := taskCompletionRate tasks
  let qa := questionAccuracy attempts
  let mastery : ℚ :=
    (if 0 < tasks.length then tcr * 0.4 else 0) +
      (if 0 < attempts.length then qa * 0.6 else 0)
  if tasks.length = 0 ∧ attempts.length = 0 then 0
  else
    let mastery :=
      if 0 < tasks.length ∧ attempts.length = 0 then tcr
      else if tasks.length = 0 ∧ 0 < attempts.length then qa
      else mastery
    Planner.jsRound (min 100 (max 0 mastery))

/-- Total minutes remaining in `calculatePacing` (readiness.ts): the sum of
`estimated_minutes` over the fetched incomplete tasks. -/
def totalMinutesRemaining (incompleteTaskMinutes : List ℚ) : ℚ :=
  incompleteTaskMinutes.sum

/-- Average daily study minutes in `calculatePacing`: the summed session
durations over `min(30, sessions)`, defaulting to 60 with no sessions. -/
def avgDailyMinutes (sessionDurations : List ℚ) : ℚ :=
  if 0 < sessionDurations.length then
    sessionDurations.sum / ((min 30 sessionDurations.length : ℕ) : ℚ)
  else 60

/-- Required days to finish in `calculatePacing`:
`totalMinutesRemaining / avgDailyMinutes` when the average is positive. -/
def requiredDays (incompleteTaskMinutes sessionDurations : List ℚ) : ℚ :=
  if 0 < avgDailyMinutes sessionDurations then
    totalMinutesRemaining incompleteTaskMinutes / avgDailyMinutes sessionDurations
  else 0

/-- Days until the exam in `calculatePacing`:
`max(0, Math.ceil((examDate - now) / msPerDay))`. -/
def daysUntilExam (examDate nowTime : ℤ) : ℤ :=
  max 0 (Planner.jsCeil (((examDate - nowTime : ℤ) : ℚ) / Planner.msPerDay))

/-- `calculatePacing` (readiness.ts), with the two database fetches
replaced by the fetched minute lists and `Date.now()` by `nowTime`:
an all-or-nothing score when the exam is today, otherwise a five-bucket
step function comparing required days against days until the exam. -/
def calculatePacing (incompleteTaskMinutes sessionDurations : List ℚ)
    (examDate nowTime : ℤ) : ℚ :=
  let rem := totalMinutesRemaining incompleteTaskMinutes
  let req := requiredDays incompleteTaskMinutes sessionDurations
  let d := daysUntilExam examDate nowTime
  if d = 0 then (if rem = 0 then 100 else 0)
  else if req ≤ (d : ℚ) * 0.5 then 100
  else if req ≤ (d : ℚ) * 0.75 then 75
  else if req ≤ (d : ℚ) then 50
  else if req ≤ (d : ℚ) * 1.5 then 25
  else 10

end Analytics

namespace Planner

/-- A unit last studied at timestamp 0 with mastery 80. -/
def demoUnitStudied : CourseUnit :=
  { id := "u1", course_id := "c1", mastery_score := 80, last_studied_at := some 0 }

/-- A context whose current date is 6 days after `demoUnitStudied` was
last studied. -/
def ctxStudied6 : ScoringContext :=
  { units := fun uid => if uid = "u1" then some demoUnitStudied else none
    courses := fun _ => none
    currentDate := 518400000
    exp := fun _ => 0 }

/-- A context whose current date is 2 days after `demoUnitStudied` was
last studied. -/
def ctxStudied2 : ScoringContext :=
  { units := fun uid => if uid = "u1" then some demoUnitStudied else none
    courses := fun _ => none
    currentDate := 172800000
    exp := fun _ => 0 }

/-- A task linked to unit `"u1"`. -/
def taskWithUnit : Task :=
  { id := "t1", title := "Review unit", task_type := .exam_build,
    due_date := none, estimated_minutes := 30,
    course_unit_id := some "u1", project_id := none }

/-- A context with empty lookup maps whose `exp` returns the IEEE-754
double value of `Math.exp(-6/7)` (the task below is due in 6 days). -/
def ctxExp6 : ScoringContext :=
  { units := fun _ => none
    courses := fun _ => none
    currentDate := 0
    exp := fun _ => 1911205389656869 / 4503599627370496 }

/-- A timed-practice task due 6 days after time 0, with no unit. -/
def taskDue6 : Task :=
  { id := "t2", title := "Practice quiz", task_type := .timed_practice,
    due_date := some 518400000, estimated_minutes := 30,
    course_unit_id := none, project_id := none }

/-- A task referencing unit id `"missing"`, absent from every map below. -/
def taskMissingUnit : Task :=
  { id := "t3", title := "Drill", task_type := .exam_build,
    due_date := none, estimated_minutes := 30,
    course_unit_id := some "missing", project_id := none }

/-- A context with empty lookup maps. -/
def ctxEmpty : ScoringContext :=
  { units := fun _ => none, courses := fun _ => none,
    currentDate := 0, exp := fun _ => 0 }

/-- A scored assignment task (40 minutes). -/
def demoScoredAssignment : ScoredTask :=
  { id := "s1", title := "Essay", task_type := .assignment_work,
    due_date := none, estimated_minutes := 40, course_unit_id := none,
    project_id := none, totalScore := 50, urgencyScore := 60,
    importanceScore := 70, weaknessBonus := 0, recencyBonus := 15 }

/-- A scored exam-build task with urgency above 50, so the Due-Soon
overflow fill will consume it. -/
def demoScoredExam : ScoredTask :=
  { id := "s2", title := "Exam prep", task_type := .exam_build,
    due_date := none, estimated_minutes := 30, course_unit_id := none,
    project_id := none, totalScore := 45, urgencyScore := 60,
    importanceScore := 50, weaknessBonus := 30, recencyBonus := 15 }

/-- A scored timed-practice task (12 minutes). -/
def demoScoredTimed : ScoredTask :=
  { id := "s3", title := "Timed set", task_type := .timed_practice,
    due_date := none, estimated_minutes := 12, course_unit_id := none,
    project_id := none, totalScore := 20, urgencyScore := 10,
    importanceScore := 30, weaknessBonus := 0, recencyBonus := 15 }

/-- A small distinct scored-task list exercising all three lanes and the
overflow fill. -/
def demoScoredTasks : List ScoredTask :=
  [demoScoredAssignment, demoScoredExam, demoScoredTimed]

end Planner

namespace Analytics

/-- Two task rows, one completed: completion rate 50. -/
def demoTaskRecords : List TaskRecord :=
  [{ id := "a", status := "completed" }, { id := "b", status := "todo" }]

/-- Three attempts, one correct: accuracy 100/3. -/
def demoAttemptRecords : List AttemptRecord :=
  [{ id := "q1", correct := true }, { id := "q2", correct := false },
   { id := "q3", correct := false }]

end Analytics

namespace Planner

/-- Rounding is monotone. -/
theorem jsRound_mono {x y : ℚ} (h : x ≤ y) : jsRound x ≤ jsRound y :=
  Int.floor_le_floor (by linarith)

/-- Rounding a nonnegative value is nonnegative. -/
theorem jsRound_nonneg {x : ℚ} (h : 0 ≤ x) : 0 ≤ jsRound x :=
  Int.le_floor.mpr (by push_cast; linarith)

/-- Rounding an integer returns it. -/
theorem jsRound_intCast (n : ℤ) : jsRound (n : ℚ) = n := by
  unfold jsRound
  rw [Int.floor_int_add]
  norm_num

/-- Two-decimal rounding never pushes a value above an integer bound. -/
theorem round2_le_of_le {x : ℚ} {n : ℤ} (h : x ≤ (n : ℚ)) : round2 x ≤ (n : ℚ) := by
  unfold round2
  rw [div_le_iff₀ (by norm_num : (0:ℚ) < 100)]
  have h1 : jsRound (x * 100) ≤ jsRound (((n * 100 : ℤ) : ℚ)) := by
    apply jsRound_mono
    push_cast
    nlinarith
  have h2 : jsRound (((n * 100 : ℤ) : ℚ)) = n * 100 := jsRound_intCast _
  calc ((jsRound (x * 100) : ℤ) : ℚ) ≤ ((n * 100 : ℤ) : ℚ) := by
        exact_mod_cast h2 ▸ h1
    _ = (n : ℚ) * 100 := by push_cast; ring

/-- Two-decimal rounding never pushes a value below an integer bound. -/
theorem le_round2_of_le {x : ℚ} {n : ℤ} (h : (n : ℚ) ≤ x) : (n : ℚ) ≤ round2 x := by
  unfold round2
  rw [le_div_iff₀ (by norm_num : (0:ℚ) < 100)]
  have h1 : jsRound (((n * 100 : ℤ) : ℚ)) ≤ jsRound (x * 100) := by
    apply jsRound_mono
    push_cast
    nlinarith
  have h2 : jsRound (((n * 100 : ℤ) : ℚ)) = n * 100 := jsRound_intCast _
  calc (n : ℚ) * 100 = ((n * 100 : ℤ) : ℚ) := by push_cast; ring
    _ ≤ ((jsRound (x * 100) : ℤ) : ℚ) := by exact_mod_cast h2 ▸ h1

/-- C9: `scheduleTasks` on an empty task list with a 120-minute daily
target returns three empty lanes with target minutes 78 / 30 / 12
(`round(120×0.65)`, `round(120×0.25)`, `round(120×0.10)`) and zero
realized minutes — no error. -/
theorem scheduleTasks_empty_120 :
    scheduleTasks [] 120 =
      { lanes :=
          [ { name := "due_soon", displayName := "Due Soon",
              tasks := [], totalMinutes := 0, targetMinutes := 78 }
          , { name := "exam_build", displayName := "Exam Build",
              tasks := [], totalMinutes := 0, targetMinutes := 30 }
          , { name := "timed_practice", displayName := "Timed Practice",
              tasks := [], totalMinutes := 0, targetMinutes := 12 } ]
        totalMinutes := 0 } := by
  norm_num [scheduleTasks, calculateTimeBudgets, fillLane, overflowFill, jsRound,
    List.insertionSort]

/-- C1 counterexample: for a task linked to a unit last studied exactly 6
days ago, the recency bonus is 18, not the 20 the claim states. -/
theorem recencyBonus_day6_ne_20 :
    taskWithUnit.course_unit_id = some "u1" ∧
    ctxStudied6.units "u1" = some demoUnitStudied ∧
    demoUnitStudied.last_studied_at = some 0 ∧
    daysSinceStudied ctxStudied6.currentDate 0 = 6 ∧
    calculateRecencyBonus taskWithUnit ctxStudied6 = 18 ∧
    calculateRecencyBonus taskWithUnit ctxStudied6 ≠ 20 := by
  norm_num [calculateRecencyBonus, taskWithUnit, ctxStudied6, demoUnitStudied,
    daysSinceStudied, jsFloor, msPerDay]

/-- C1 (amended): for a task linked to a unit, the recency bonus is 0 at
`daysSinceStudied = 1`, 10 at 2, 18 (not 20) at 6, 25 at 7, 25 when the
unit was never studied, and `10 + 2×(daysSince − 2)` throughout
`2 ≤ daysSinceStudied < 7`. -/
theorem recencyBonus_boundary (task : Task) (ctx : ScoringContext)
    (uid : String) (unit : CourseUnit)
    (hcu : task.course_unit_id = some uid) (hu : ctx.units uid = some unit) :
    (unit.last_studied_at = none → calculateRecencyBonus task ctx = 25) ∧
    (∀ last : ℤ, unit.last_studied_at = some last →
      (daysSinceStudied ctx.currentDate last = 1 →
        calculateRecencyBonus task ctx = 0) ∧
      (daysSinceStudied ctx.currentDate last = 2 →
        calculateRecencyBonus task ctx = 10) ∧
      (daysSinceStudied ctx.currentDate last = 6 →
        calculateRecencyBonus task ctx = 18) ∧
      (daysSinceStudied ctx.currentDate last = 7 →
        calculateRecencyBonus task ctx = 25) ∧
      (2 ≤ daysSinceStudied ctx.currentDate last →
        daysSinceStudied ctx.currentDate last < 7 →
        calculateRecencyBonus task ctx =
          10 + 2 * ((daysSinceStudied ctx.currentDate last : ℚ) - 2))) := by
  constructor
  · intro hnone
    simp [calculateRecencyBonus, hcu, hu, hnone]
  · intro last hlast
    refine ⟨?_, ?_, ?_, ?_, ?_⟩
    · intro hd
      simp [calculateRecencyBonus, hcu, hu, hlast, hd]
    · intro hd
      norm_num [calculateRecencyBonus, hcu, hu, hlast, hd]
    · intro hd
      norm_num [calculateRecencyBonus, hcu, hu, hlast, hd]
    · intro hd
      norm_num [calculateRecencyBonus, hcu, hu, hlast, hd]
    · intro h2 h7
      have hn2 : ¬ daysSinceStudied ctx.currentDate last < 2 := by omega
      simp only [calculateRecencyBonus, hcu, hu, hlast, hn2, if_false, h7, if_true]
      ring

/-- C1 witness: the amended theorem applied to a unit studied 2 days ago
yields recency bonus 10. -/
theorem recencyBonus_boundary_witness :
    calculateRecencyBonus taskWithUnit ctxStudied2 = 10 := by
  have h :=
    (recencyBonus_boundary taskWithUnit ctxStudied2 "u1" demoUnitStudied
        (by decide) (by decide)).2 0 (by decide)
  exact h.2.1 (by norm_num [daysSinceStudied, jsFloor, msPerDay, ctxStudied2])

/-- C3 counterexample: for a task whose unit id is absent from the units
map, the recency bonus is 25, not the neutral 15 the claim states. -/
theorem missingUnit_recency_ne_15 :
    taskMissingUnit.course_unit_id = some "missing" ∧
    ctxEmpty.units "missing" = none ∧
    calculateRecencyBonus taskMissingUnit ctxEmpty = 25 ∧
    calculateRecencyBonus taskMissingUnit ctxEmpty ≠ 15 := by
  decide

/-- C3 (amended): a task whose `course_unit_id` is not a key of the units
map is scored without failing: weakness bonus 0, recency bonus 25 (treated
like a never-studied unit, not the neutral 15), and the importance stays
at the task type's base value — no exam-proximity boost. -/
theorem missingUnit_no_context (task : Task) (ctx : ScoringContext)
    (uid : String) (hcu : task.course_unit_id = some uid)
    (hu : ctx.units uid = none) :
    calculateWeaknessBonus task ctx = 0 ∧
    calculateRecencyBonus task ctx = 25 ∧
    calculateImportance task ctx = baseImportance task.task_type := by
  refine ⟨?_, ?_, ?_⟩
  · simp [calculateWeaknessBonus, hcu, hu]
  · simp [calculateRecencyBonus, hcu, hu]
  · simp only [calculateImportance, hcu, hu]
    cases task.task_type <;> norm_num [baseImportance]

/-- C3 witness: the amended theorem applied to `taskMissingUnit` in a
context with empty maps. -/
theorem missingUnit_no_context_witness :
    calculateWeaknessBonus taskMissingUnit ctxEmpty = 0 ∧
    calculateRecencyBonus taskMissingUnit ctxEmpty = 25 ∧
    calculateImportance taskMissingUnit ctxEmpty =
      baseImportance taskMissingUnit.task_type :=
  missingUnit_no_context taskMissingUnit ctxEmpty "missing"
    (by decide) (by decide)

/-- C2 counterexample: for a task due in 6 days (with `exp` returning the
double value of `Math.exp(-6/7)`), the code's total is 28.97 while the
claimed round-each-sub-score-first order yields 28.98. -/
theorem scoreTask_rounding_order_ce :
    (scoreTask taskDue6 ctxExp6).totalScore = 2897 / 100 ∧
    round2 (round2 (calculateUrgency ctxExp6 taskDue6.due_date) * 0.4 +
        round2 (calculateImportance taskDue6 ctxExp6) * 0.35 +
        round2 (calculateWeaknessBonus taskDue6 ctxExp6) * 0.15 +
        round2 (calculateRecencyBonus taskDue6 ctxExp6) * 0.1) = 1449 / 50 ∧
    (scoreTask taskDue6 ctxExp6).totalScore ≠
      round2 (round2 (calculateUrgency ctxExp6 taskDue6.due_date) * 0.4 +
        round2 (calculateImportance taskDue6 ctxExp6) * 0.35 +
        round2 (calculateWeaknessBonus taskDue6 ctxExp6) * 0.15 +
        round2 (calculateRecencyBonus taskDue6 ctxExp6) * 0.1) := by
  refine ⟨?_, ?_, ?_⟩ <;>
    norm_num [scoreTask, taskDue6, ctxExp6, calculateUrgency, calculateImportance,
      calculateWeaknessBonus, calculateRecencyBonus, baseImportance, round2,
      jsRound, jsCeil, msPerDay]

/-- C2 (amended): `scoreTask` forms the weighted sum
`urgency×0.40 + importance×0.35 + weakness×0.15 + recency×0.10` from the
UNROUNDED sub-scores and rounds the total to 2 decimals once; the
individually rounded sub-scores are returned alongside but are not what
the total is computed from. -/
theorem scoreTask_total_rounding (task : Task) (ctx : ScoringContext) :
    (scoreTask task ctx).totalScore =
      round2 (calculateUrgency ctx task.due_date * 0.4 +
        calculateImportance task ctx * 0.35 +
        calculateWeaknessBonus task ctx * 0.15 +
        calculateRecencyBonus task ctx * 0.1) ∧
    (scoreTask task ctx).urgencyScore =
      round2 (calculateUrgency ctx task.due_date) ∧
    (scoreTask task ctx).importanceScore =
      round2 (calculateImportance task ctx) ∧
    (scoreTask task ctx).weaknessBonus =
      round2 (calculateWeaknessBonus task ctx) ∧
    (scoreTask task ctx).recencyBonus =
      round2 (calculateRecencyBonus task ctx) :=
  ⟨rfl, rfl, rfl, rfl, rfl⟩

/-- A clamp `min 100 (max 0 x)` lands in `[0, 100]`. -/
theorem clamp_bounds (x : ℚ) :
    0 ≤ min 100 (max 0 x) ∧ min 100 (max 0 x) ≤ 100 :=
  ⟨le_min (by norm_num) (le_max_left 0 x), min_le_left 100 _⟩

/-- The urgency score is within `[0, 100]` for every context. -/
theorem calculateUrgency_bounds (ctx : ScoringContext) (d : Option ℤ) :
    0 ≤ calculateUrgency ctx d ∧ calculateUrgency ctx d ≤ 100 := by
  cases d with
  | none => norm_num [calculateUrgency]
  | some due => exact clamp_bounds _

/-- The importance score is within `[0, 100]`. -/
theorem calculateImportance_bounds (task : Task) (ctx : ScoringContext) :
    0 ≤ calculateImportance task ctx ∧ calculateImportance task ctx ≤ 100 := by
  unfold calculateImportance
  exact clamp_bounds _

/-- The weakness bonus is within `[0, 50]`. -/
theorem calculateWeaknessBonus_bounds (task : Task) (ctx : ScoringContext) :
    0 ≤ calculateWeaknessBonus task ctx ∧ calculateWeaknessBonus task ctx ≤ 50 := by
  unfold calculateWeaknessBonus
  cases hcu : task.course_unit_id with
  | none => norm_num
  | some uid =>
    cases hu : ctx.units uid with
    | none => norm_num [hu]
    | some unit =>
      simp only [hu]
      split_ifs <;> norm_num

/-- The recency bonus is within `[0, 25]`. -/
theorem calculateRecencyBonus_bounds (task : Task) (ctx : ScoringContext) :
    0 ≤ calculateRecencyBonus task ctx ∧ calculateRecencyBonus task ctx ≤ 25 := by
  unfold calculateRecencyBonus
  cases hcu : task.course_unit_id with
  | none => norm_num
  | some uid =>
    cases hu : ctx.units uid with
    | none => norm_num [hu]
    | some unit =>
      cases hls : unit.last_studied_at with
      | none => norm_num [hu, hls]
      | some lastStudied =>
        simp only [hu, hls]
        split_ifs with h2 h7
        · norm_num
        · have h2' : (2:ℚ) ≤ ((daysSinceStudied ctx.currentDate lastStudied : ℤ) : ℚ) := by
            exact_mod_cast not_lt.mp h2
          have h7' : ((daysSinceStudied ctx.currentDate lastStudied : ℤ) : ℚ) ≤ 6 := by
            exact_mod_cast Int.lt_add_one_iff.mp h7
          constructor <;> nlinarith
        · norm_num

/-- C10: the total score returned by `scoreTask` never exceeds 85 for any
task and any scoring context: the weighted sum is bounded by
`100×0.40 + 100×0.35 + 50×0.15 + 25×0.10 = 85`, and rounding to two
decimals cannot push it past 85. -/
theorem scoreTask_totalScore_le_85 (task : Task) (ctx : ScoringContext) :
    (scoreTask task ctx).totalScore ≤ 85 := by
  obtain ⟨hu0, hu1⟩ := calculateUrgency_bounds ctx task.due_date
  obtain ⟨hi0, hi1⟩ := calculateImportance_bounds task ctx
  obtain ⟨hw0, hw1⟩ := calculateWeaknessBonus_bounds task ctx
  obtain ⟨hr0, hr1⟩ := calculateRecencyBonus_bounds task ctx
  have hraw : calculateUrgency ctx task.due_date * 0.4 +
      calculateImportance task ctx * 0.35 +
      calculateWeaknessBonus task ctx * 0.15 +
      calculateRecencyBonus task ctx * 0.1 ≤ ((85 : ℤ) : ℚ) := by
    push_cast
    nlinarith
  have := round2_le_of_le hraw
  simpa [scoreTask] using this

end Planner

namespace Analytics

/-- The task completion rate is within `[0, 100]`. -/
theorem taskCompletionRate_bounds (tasks : List TaskRecord) :
    0 ≤ taskCompletionRate tasks ∧ taskCompletionRate tasks ≤ 100 := by
  unfold taskCompletionRate
  split_ifs with h
  · have hle := List.length_filter_le
      (fun t : TaskRecord => decide (t.status = "completed")) tasks
    have hpos : (0:ℚ) < (tasks.length : ℚ) := by exact_mod_cast h
    constructor
    · positivity
    · rw [div_mul_eq_mul_div, div_le_iff₀ hpos]
      have : ((tasks.filter (fun t => decide (t.status = "completed"))).length : ℚ)
          ≤ (tasks.length : ℚ) := by exact_mod_cast hle
      nlinarith
  · norm_num

/-- The question accuracy is within `[0, 100]`. -/
theorem questionAccuracy_bounds (attempts : List AttemptRecord) :
    0 ≤ questionAccuracy attempts ∧ questionAccuracy attempts ≤ 100 := by
  unfold questionAccuracy
  split_ifs with h
  · have hle := List.length_filter_le (fun a : AttemptRecord => a.correct) attempts
    have hpos : (0:ℚ) < (attempts.length : ℚ) := by exact_mod_cast h
    constructor
    · positivity
    · rw [div_mul_eq_mul_div, div_le_iff₀ hpos]
      have : ((attempts.filter (fun a => a.correct)).length : ℚ)
          ≤ (attempts.length : ℚ) := by exact_mod_cast hle
      nlinarith
  · norm_num

/-- Rounding a value in `[0, 100]` stays in `[0, 100]`. -/
theorem jsRound_mem_Icc {x : ℚ} (h0 : 0 ≤ x) (h1 : x ≤ 100) :
    0 ≤ Planner.jsRound x ∧ Planner.jsRound x ≤ 100 := by
  constructor
  · exact Planner.jsRound_nonneg h0
  · have := Planner.jsRound_mono (show x ≤ ((100 : ℤ) : ℚ) by exact_mod_cast h1)
    rwa [Planner.jsRound_intCast] at this

/-- C7: `calculateUnitMastery` returns an integer in `[0, 100]`; it is 0
when both inputs are empty, `round(taskCompletionRate)` when only tasks
exist (no 40/60 split), `round(questionAccuracy)` when only attempts
exist, and `round(rate × 0.4 + accuracy × 0.6)` clamped to `[0, 100]`
when both exist. -/
theorem calculateUnitMastery_spec (tasks : List TaskRecord)
    (attempts : List AttemptRecord) :
    (0 ≤ calculateUnitMastery tasks attempts ∧
      calculateUnitMastery tasks attempts ≤ 100) ∧
    (tasks = [] → attempts = [] → calculateUnitMastery tasks attempts = 0) ∧
    (tasks ≠ [] → attempts = [] → calculateUnitMastery tasks attempts =
      Planner.jsRound (taskCompletionRate tasks)) ∧
    (tasks = [] → attempts ≠ [] → calculateUnitMastery tasks attempts =
      Planner.jsRound (questionAccuracy attempts)) ∧
    (tasks ≠ [] → attempts ≠ [] → calculateUnitMastery tasks attempts =
      min 100 (max 0 (Planner.jsRound
        (taskCompletionRate tasks * 0.4 + questionAccuracy attempts * 0.6)))) := by
  obtain ⟨ht0, ht1⟩ := taskCompletionRate_bounds tasks
  obtain ⟨ha0, ha1⟩ := questionAccuracy_bounds attempts
  refine ⟨?_, ?_, ?_, ?_, ?_⟩
  · unfold calculateUnitMastery
    dsimp only
    split_ifs
    case _ => norm_num
    all_goals exact jsRound_mem_Icc (Planner.clamp_bounds _).1 (Planner.clamp_bounds _).2
  · intro ht ha
    simp [calculateUnitMastery, ht, ha]
  · intro ht ha
    have hlen : 0 < tasks.length := List.length_pos.mpr ht
    have hcl : min 100 (max 0 (taskCompletionRate tasks)) = taskCompletionRate tasks := by
      rw [max_eq_right ht0, min_eq_right ht1]
    simp only [calculateUnitMastery, ha, List.length_nil, lt_irrefl, if_neg (by omega : ¬ tasks.length = 0)]
    simp [hlen, Nat.pos_iff_ne_zero.mp hlen, hcl]
  · intro ht ha
    have hlen : 0 < attempts.length := List.length_pos.mpr ha
    have hcl : min 100 (max 0 (questionAccuracy attempts)) = questionAccuracy attempts := by
      rw [max_eq_right ha0, min_eq_right ha1]
    simp only [calculateUnitMastery, ht, List.length_nil]
    simp [hlen, Nat.pos_iff_ne_zero.mp hlen, hcl]
  · intro ht ha
    have hlt : 0 < tasks.length := List.length_pos.mpr ht
    have hla : 0 < attempts.length := List.length_pos.mpr ha
    have hcb0 : 0 ≤ taskCompletionRate tasks * 0.4 + questionAccuracy attempts * 0.6 := by
      nlinarith
    have hcb1 : taskCompletionRate tasks * 0.4 + questionAccuracy attempts * 0.6 ≤ 100 := by
      nlinarith
    have hcl : min 100 (max 0 (taskCompletionRate tasks * 0.4 + questionAccuracy attempts * 0.6)) =
        taskCompletionRate tasks * 0.4 + questionAccuracy attempts * 0.6 := by
      rw [max_eq_right hcb0, min_eq_right hcb1]
    obtain ⟨hr0, hr1⟩ := jsRound_mem_Icc hcb0 hcb1
    simp only [calculateUnitMastery,
      if_neg (by omega : ¬ (tasks.length = 0 ∧ attempts.length = 0)),
      if_neg (by omega : ¬ (0 < tasks.length ∧ attempts.length = 0)),
      if_neg (by omega : ¬ (tasks.length = 0 ∧ 0 < attempts.length)),
      if_pos hlt, if_pos hla, hcl]
    rw [max_eq_right hr0, min_eq_right hr1]

/-- C7 witness: 2 tasks (1 completed) and 3 attempts (1 correct) give
mastery `round(50×0.4 + (100/3)×0.6) = 40`. -/
theorem calculateUnitMastery_spec_witness :
    calculateUnitMastery demoTaskRecords demoAttemptRecords = 40 := by
  have h := (calculateUnitMastery_spec demoTaskRecords demoAttemptRecords).2.2.2.2
    (by decide) (by decide)
  rw [h]
  have h1 : (demoTaskRecords.filter
      (fun t => decide (t.status = "completed"))).length = 1 := by decide
  have h2 : demoTaskRecords.length = 2 := by decide
  have h3 : (demoAttemptRecords.filter (fun a => a.correct)).length = 1 := by decide
  have h4 : demoAttemptRecords.length = 3 := by decide
  norm_num [taskCompletionRate, questionAccuracy, h1, h2, h3, h4,
    Planner.jsRound, inf_eq_min, sup_eq_max, min_def, max_def]

/-- C8: the pacing sub-score: when `daysUntilExam = 0` it is 100 with no
remaining work and 0 otherwise; when `daysUntilExam > 0` it is the
five-bucket step function of the ratio `requiredDays / daysUntilExam`
(≤0.5 → 100, ≤0.75 → 75, ≤1 → 50, ≤1.5 → 25, else 10). -/
theorem calculatePacing_ratio (rem sess : List ℚ) (examDate nowTime : ℤ) :
    calculatePacing rem sess examDate nowTime =
      if daysUntilExam examDate nowTime = 0 then
        (if totalMinutesRemaining rem = 0 then 100 else 0)
      else if requiredDays rem sess / ((daysUntilExam examDate nowTime : ℤ) : ℚ) ≤ 0.5
        then 100
      else if requiredDays rem sess / ((daysUntilExam examDate nowTime : ℤ) : ℚ) ≤ 0.75
        then 75
      else if requiredDays rem sess / ((daysUntilExam examDate nowTime : ℤ) : ℚ) ≤ 1
        then 50
      else if requiredDays rem sess / ((daysUntilExam examDate nowTime : ℤ) : ℚ) ≤ 1.5
        then 25
      else 10 := by
  by_cases h0 : daysUntilExam examDate nowTime = 0
  · simp [calculatePacing, h0]
  · have hge : (0:ℤ) ≤ daysUntilExam examDate nowTime := le_max_left 0 _
    have hdq : (0:ℚ) < ((daysUntilExam examDate nowTime : ℤ) : ℚ) := by
      have : 0 < daysUntilExam examDate nowTime := lt_of_le_of_ne hge (Ne.symm h0)
      exact_mod_cast this
    have e1 : (requiredDays rem sess / ((daysUntilExam examDate nowTime : ℤ) : ℚ) ≤ 0.5) ↔
        requiredDays rem sess ≤ ((daysUntilExam examDate nowTime : ℤ) : ℚ) * 0.5 := by
      rw [div_le_iff₀ hdq, mul_comm]
    have e2 : (requiredDays rem sess / ((daysUntilExam examDate nowTime : ℤ) : ℚ) ≤ 0.75) ↔
        requiredDays rem sess ≤ ((daysUntilExam examDate nowTime : ℤ) : ℚ) * 0.75 := by
      rw [div_le_iff₀ hdq, mul_comm]
    have e3 : (requiredDays rem sess / ((daysUntilExam examDate nowTime : ℤ) : ℚ) ≤ 1) ↔
        requiredDays rem sess ≤ ((daysUntilExam examDate nowTime : ℤ) : ℚ) := by
      rw [div_le_one hdq]
    have e4 : (requiredDays rem sess / ((daysUntilExam examDate nowTime : ℤ) : ℚ) ≤ 1.5) ↔
        requiredDays rem sess ≤ ((daysUntilExam examDate nowTime : ℤ) : ℚ) * 1.5 := by
      rw [div_le_iff₀ hdq, mul_comm]
    simp only [calculatePacing, if_neg h0, e1, e2, e3, e4]

end Analytics

namespace Planner

/-- Filtering by a fixed total score commutes with `orderedInsert` for the
descending-score order: every element the insertion walks past has a
strictly larger total score, so it cannot share the filtered score. -/
theorem filter_score_orderedInsert (v : ℚ) (a : ScoredTask) (l : List ScoredTask) :
    (l.orderedInsert scoreDesc a).filter (fun t => decide (t.totalScore = v)) =
      if a.totalScore = v then
        a :: l.filter (fun t => decide (t.totalScore = v))
      else l.filter (fun t => decide (t.totalScore = v)) := by
  induction l with
  | nil =>
    by_cases h : a.totalScore = v <;> simp [List.orderedInsert, h]
  | cons b l ih =>
    by_cases hab : scoreDesc a b
    · rw [List.orderedInsert_of_le _ _ hab]
      by_cases h : a.totalScore = v <;> simp [List.filter_cons, h]
    · have hba : a.totalScore < b.totalScore := not_le.mp hab
      by_cases hav : a.totalScore = v
      · have hbv : ¬ b.totalScore = v := by
          intro hb
          rw [hav] at hba
          rw [hb] at hba
          exact lt_irrefl v hba
        simp [List.orderedInsert, if_neg hab, List.filter_cons, ih, hav, hbv]
      · simp [List.orderedInsert, if_neg hab, List.filter_cons, ih, hav]

/-- Filtering by a fixed total score commutes with the descending
insertion sort (stability for the sort used by `scoreTasks`). -/
theorem filter_score_insertionSort (v : ℚ) (l : List ScoredTask) :
    (List.insertionSort scoreDesc l).filter (fun t => decide (t.totalScore = v)) =
      l.filter (fun t => decide (t.totalScore = v)) := by
  induction l with
  | nil => rfl
  | cons a l ih =>
    simp only [List.insertionSort, filter_score_orderedInsert, ih, List.filter]
    split_ifs with h
    · simp [h]
    · simp [h]

/-- C4: `scoreTasks` returns a list that is sorted descending by total
score, is a permutation of the scored input tasks (nothing dropped or
duplicated), and is stable: for every total-score value, the sublist of
tasks carrying that score equals the corresponding sublist of the scored
input, in input order. -/
theorem scoreTasks_sorted_perm_stable (tasks : List Task) (ctx : ScoringContext) :
    List.Pairwise (fun a b => b.totalScore ≤ a.totalScore) (scoreTasks tasks ctx) ∧
    List.Perm (scoreTasks tasks ctx) (tasks.map (fun t => scoreTask t ctx)) ∧
    (∀ v : ℚ, (scoreTasks tasks ctx).filter (fun t => decide (t.totalScore = v)) =
      (tasks.map (fun t => scoreTask t ctx)).filter
        (fun t => decide (t.totalScore = v))) :=
  ⟨List.sorted_insertionSort scoreDesc _,
   List.perm_insertionSort scoreDesc _,
   fun v => filter_score_insertionSort v _⟩

/-- The lane-filling loop never exceeds the 5-task cap. -/
theorem fillLane_length_le (limit : ℚ) (ts : List ScoredTask) :
    ∀ (acc : List ScoredTask) (tot : ℚ), acc.length ≤ 5 →
      (fillLane limit ts acc tot).1.length ≤ 5 := by
  induction ts with
  | nil =>
    intro acc tot h
    simpa [fillLane] using h
  | cons t ts ih =>
    intro acc tot h
    simp only [fillLane]
    split_ifs with h5 hfit
    · simpa using h
    · exact ih _ _ (by simp; omega)
    · exact ih _ _ h

/-- The lane-filling loop keeps the running total within the limit. -/
theorem fillLane_tot_le (limit : ℚ) (ts : List ScoredTask) :
    ∀ (acc : List ScoredTask) (tot : ℚ), tot ≤ limit →
      (fillLane limit ts acc tot).2 ≤ limit := by
  induction ts with
  | nil =>
    intro acc tot h
    simpa [fillLane] using h
  | cons t ts ih =>
    intro acc tot h
    simp only [fillLane]
    split_ifs with h5 hfit
    · simpa using h
    · exact ih _ _ hfit
    · exact ih _ _ h

/-- The lane-filling loop returns a sublist of the accumulated tasks
followed by the candidates (admission preserves order, skipping drops). -/
theorem fillLane_sublist (limit : ℚ) (ts : List ScoredTask) :
    ∀ (acc : List ScoredTask) (tot : ℚ),
      List.Sublist (fillLane limit ts acc tot).1 (acc ++ ts) := by
  induction ts with
  | nil =>
    intro acc tot
    simp [fillLane]
  | cons t ts ih =>
    intro acc tot
    simp only [fillLane]
    split_ifs with h5 hfit
    · exact List.sublist_append_left acc (t :: ts)
    · have h := ih (acc ++ [t]) (tot + t.estimated_minutes)
      rwa [List.append_assoc, List.singleton_append] at h
    · exact (ih acc tot).trans
        (List.Sublist.append_left (List.sublist_cons_self t ts) acc)

/-- The overflow loop admits at most as many tasks as it is offered. -/
theorem overflowFill_length_le (limit : ℚ) (ts : List ScoredTask) :
    ∀ (acc pool : List ScoredTask) (tot : ℚ),
      (overflowFill limit ts acc tot pool).1.length ≤ acc.length + ts.length := by
  induction ts with
  | nil =>
    intro acc pool tot
    simp [overflowFill]
  | cons t ts ih =>
    intro acc pool tot
    simp only [overflowFill]
    split_ifs with hfit
    · have h := ih (acc ++ [t]) (pool.erase t) (tot + t.estimated_minutes)
      simp only [List.length_append, List.length_cons, List.length_nil] at h ⊢
      omega
    · have h := ih acc pool tot
      simp only [List.length_cons]
      omega

/-- The overflow loop keeps the running total within the limit. -/
theorem overflowFill_tot_le (limit : ℚ) (ts : List ScoredTask) :
    ∀ (acc pool : List ScoredTask) (tot : ℚ), tot ≤ limit →
      (overflowFill limit ts acc tot pool).2.1 ≤ limit := by
  induction ts with
  | nil =>
    intro acc pool tot h
    simpa [overflowFill] using h
  | cons t ts ih =>
    intro acc pool tot h
    simp only [overflowFill]
    split_ifs with hfit
    · exact ih _ _ _ hfit
    · exact ih _ _ _ h

/-- Positive daily targets give nonnegative lane budgets. -/
theorem budget_nonneg {T c : ℚ} (hT : 0 < T) (hc : 0 ≤ c) :
    (0 : ℚ) ≤ ((jsRound (T * c) : ℤ) : ℚ) := by
  have h : 0 ≤ jsRound (T * c) := jsRound_nonneg (by nlinarith)
  exact_mod_cast h

/-- Helper: the Due-Soon lane (assignment fill followed by the optional
high-urgency overflow fill) respects the 5-task cap and the limit. -/
theorem dueSoon_caps (limitB : ℚ) (hlim0 : 0 ≤ limitB) (A E : List ScoredTask) :
    (if (fillLane limitB A [] 0).1.length < 5 then
        overflowFill limitB
          ((E.filter (fun t => decide ((50 : ℚ) < t.urgencyScore))).take
            (5 - (fillLane limitB A [] 0).1.length))
          (fillLane limitB A [] 0).1 (fillLane limitB A [] 0).2 E
      else ((fillLane limitB A [] 0).1, (fillLane limitB A [] 0).2, E)).1.length ≤ 5 ∧
    (if (fillLane limitB A [] 0).1.length < 5 then
        overflowFill limitB
          ((E.filter (fun t => decide ((50 : ℚ) < t.urgencyScore))).take
            (5 - (fillLane limitB A [] 0).1.length))
          (fillLane limitB A [] 0).1 (fillLane limitB A [] 0).2 E
      else ((fillLane limitB A [] 0).1, (fillLane limitB A [] 0).2, E)).2.1 ≤ limitB := by
  have h1len : (fillLane limitB A [] 0).1.length ≤ 5 :=
    fillLane_length_le limitB A [] 0 (by simp)
  have h1tot : (fillLane limitB A [] 0).2 ≤ limitB :=
    fillLane_tot_le limitB A [] 0 hlim0
  split_ifs with hsp
  · constructor
    · have hlen := overflowFill_length_le limitB
        ((E.filter (fun t => decide ((50 : ℚ) < t.urgencyScore))).take
          (5 - (fillLane limitB A [] 0).1.length))
        (fillLane limitB A [] 0).1 E (fillLane limitB A [] 0).2
      have htake : ((E.filter (fun t => decide ((50 : ℚ) < t.urgencyScore))).take
          (5 - (fillLane limitB A [] 0).1.length)).length ≤
            5 - (fillLane limitB A [] 0).1.length :=
        (List.length_take _ _).trans_le (min_le_left _ _)
      omega
    · exact overflowFill_tot_le limitB _ _ _ _ h1tot
  · exact ⟨h1len, h1tot⟩

/-- C5: for every scored-task list and positive daily-minutes target,
every lane of the produced plan holds at most 5 tasks and its realized
minutes stay within 1.2× its target budget. -/
theorem scheduleTasks_lane_caps (ts : List ScoredTask) (T : ℚ) (hT : 0 < T)
    (i : ℕ) (lane : PlannedLane)
    (hl : (scheduleTasks ts T).lanes.get? i = some lane) :
    lane.tasks.length ≤ 5 ∧ lane.totalMinutes ≤ 1.2 * lane.targetMinutes := by
  simp only [scheduleTasks, calculateTimeBudgets] at hl
  have hbds : (0 : ℚ) ≤ ((jsRound (T * 0.65) : ℤ) : ℚ) :=
    budget_nonneg hT (by norm_num)
  have hbeb : (0 : ℚ) ≤ ((jsRound (T * 0.25) : ℤ) : ℚ) :=
    budget_nonneg hT (by norm_num)
  have hbtp : (0 : ℚ) ≤ ((jsRound (T * 0.10) : ℤ) : ℚ) :=
    budget_nonneg hT (by norm_num)
  rcases i with _ | (_ | (_ | n))
  · simp only [List.get?, Option.some.injEq] at hl
    subst hl
    simp only
    have h := dueSoon_caps (((jsRound (T * 0.65) : ℤ) : ℚ) * 1.2)
      (by nlinarith)
      (ts.filter (fun t => decide (t.task_type = TaskType.assignment_work)))
      (ts.filter (fun t => decide (t.task_type = TaskType.exam_build)))
    refine ⟨h.1, ?_⟩
    rw [mul_comm (1.2 : ℚ)]
    exact h.2
  · simp only [List.get?, Option.some.injEq] at hl
    subst hl
    simp only
    refine ⟨fillLane_length_le _ _ [] 0 (by simp), ?_⟩
    rw [mul_comm (1.2 : ℚ)]
    exact fillLane_tot_le _ _ [] 0 (by nlinarith)
  · simp only [List.get?, Option.some.injEq] at hl
    subst hl
    simp only
    refine ⟨fillLane_length_le _ _ [] 0 (by simp), ?_⟩
    rw [mul_comm (1.2 : ℚ)]
    exact fillLane_tot_le _ _ [] 0 (by nlinarith)
  · simp only [List.get?] at hl
    exact Option.noConfusion hl

/-- C5 witness: the theorem applied to the empty plan at a 120-minute
target, first lane. -/
theorem scheduleTasks_lane_caps_witness :
    ({ name := "due_soon", displayName := "Due Soon", tasks := [],
       totalMinutes := 0, targetMinutes := 78 } : PlannedLane).tasks.length ≤ 5 ∧
    ({ name := "due_soon", displayName := "Due Soon", tasks := [],
       totalMinutes := 0, targetMinutes := 78 } : PlannedLane).totalMinutes ≤
      1.2 * ({ name := "due_soon", displayName := "Due Soon", tasks := [],
               totalMinutes := 0, targetMinutes := 78 } : PlannedLane).targetMinutes :=
  scheduleTasks_lane_caps [] 120 (by norm_num) 0 _
    (by rw [scheduleTasks_empty_120]; rfl)

/-- Tasks admitted by the lane-filling loop come from the accumulator or
the candidate list. -/
theorem fillLane_mem (limit : ℚ) (ts acc : List ScoredTask) (tot : ℚ) :
    ∀ x ∈ (fillLane limit ts acc tot).1, x ∈ acc ∨ x ∈ ts := by
  intro x hx
  exact List.mem_append.mp ((fillLane_sublist limit ts acc tot).subset hx)

/-- The overflow loop preserves distinctness and removes every admitted
task from the pool: the admitted list and the remaining pool are each
duplicate-free and share no task; admitted tasks come from the
accumulator or the candidates; the remaining pool shrinks. -/
theorem overflowFill_nodup (limit : ℚ) (ts : List ScoredTask) :
    ∀ (acc pool : List ScoredTask) (tot : ℚ),
      ts.Nodup → acc.Nodup → pool.Nodup →
      (∀ x ∈ ts, x ∉ acc) → (∀ x ∈ acc, x ∉ pool) →
      ((overflowFill limit ts acc tot pool).1.Nodup ∧
        (overflowFill limit ts acc tot pool).2.2.Nodup) ∧
      (∀ x ∈ (overflowFill limit ts acc tot pool).1,
        x ∉ (overflowFill limit ts acc tot pool).2.2) ∧
      (∀ x ∈ (overflowFill limit ts acc tot pool).1, x ∈ acc ∨ x ∈ ts) ∧
      (∀ x ∈ (overflowFill limit ts acc tot pool).2.2, x ∈ pool) := by
  induction ts with
  | nil =>
    intro acc pool tot _ hacc hpool _ hdis
    simp only [overflowFill]
    exact ⟨⟨hacc, hpool⟩, hdis, fun x hx => Or.inl hx, fun x hx => hx⟩
  | cons t ts ih =>
    intro acc pool tot hts hacc hpool hta hdis
    simp only [overflowFill]
    split_ifs with hfit
    · have htnin : t ∉ acc := hta t (List.mem_cons_self t ts)
      have hts' : ts.Nodup := (List.nodup_cons.mp hts).2
      have htnts : t ∉ ts := (List.nodup_cons.mp hts).1
      have hacc' : (acc ++ [t]).Nodup := by
        rw [List.nodup_append]
        refine ⟨hacc, List.nodup_singleton t, ?_⟩
        intro x hx hx'
        rw [List.mem_singleton] at hx'
        subst hx'
        exact htnin hx
      have hpool' : (pool.erase t).Nodup := hpool.erase t
      have hta' : ∀ x ∈ ts, x ∉ acc ++ [t] := by
        intro x hx hmem
        rcases List.mem_append.mp hmem with h | h
        · exact hta x (List.mem_cons_of_mem t hx) h
        · rw [List.mem_singleton] at h
          subst h
          exact htnts hx
      have hdis' : ∀ x ∈ acc ++ [t], x ∉ pool.erase t := by
        intro x hx hmem
        rcases List.mem_append.mp hx with h | h
        · exact hdis x h (List.mem_of_mem_erase hmem)
        · rw [List.mem_singleton] at h
          subst h
          exact ((hpool.mem_erase_iff).mp hmem).1 rfl
      have hmain := ih (acc ++ [t]) (pool.erase t) (tot + t.estimated_minutes)
        hts' hacc' hpool' hta' hdis'
      refine ⟨hmain.1, hmain.2.1, ?_, ?_⟩
      · intro x hx
        rcases hmain.2.2.1 x hx with h | h
        · rcases List.mem_append.mp h with h' | h'
          · exact Or.inl h'
          · rw [List.mem_singleton] at h'
            exact Or.inr (h' ▸ List.mem_cons_self t ts)
        · exact Or.inr (List.mem_cons_of_mem t h)
      · intro x hx
        exact List.mem_of_mem_erase (hmain.2.2.2 x hx)
    · have hts' : ts.Nodup := (List.nodup_cons.mp hts).2
      have hta' : ∀ x ∈ ts, x ∉ acc := fun x hx => hta x (List.mem_cons_of_mem t hx)
      have hmain := ih acc pool tot hts' hacc hpool hta' hdis
      refine ⟨hmain.1, hmain.2.1, ?_, hmain.2.2.2⟩
      intro x hx
      rcases hmain.2.2.1 x hx with h | h
      · exact Or.inl h
      · exact Or.inr (List.mem_cons_of_mem t h)

/-- Every element of a filtered-by-type list has that type. -/
theorem mem_filter_type {l : List ScoredTask} {ty : TaskType} {x : ScoredTask}
    (hx : x ∈ l.filter (fun t => decide (t.task_type = ty))) :
    x.task_type = ty :=
  of_decide_eq_true (List.mem_filter.mp hx).2

/-- C6: on a duplicate-free scored-task list, the three lanes of the plan
are pairwise disjoint and internally duplicate-free — every task appears
in at most one lane; in particular an exam-build task pulled into the
Due-Soon lane by the overflow fill is erased from the exam-build pool and
cannot reappear in the Exam-Build lane. -/
theorem scheduleTasks_no_double_allocation (ts : List ScoredTask) (T : ℚ)
    (hnd : ts.Nodup) :
    (((scheduleTasks ts T).lanes.map PlannedLane.tasks).flatten).Nodup := by
  simp only [scheduleTasks, calculateTimeBudgets, List.map, List.append_nil]
  generalize (((jsRound (T * 0.65) : ℤ) : ℚ) * 1.2) = L1
  generalize (((jsRound (T * 0.25) : ℤ) : ℚ) * 1.2) = L2
  generalize (((jsRound (T * 0.10) : ℤ) : ℚ) * 1.2) = L3
  set A := ts.filter (fun t => decide (t.task_type = TaskType.assignment_work)) with hA
  set E := ts.filter (fun t => decide (t.task_type = TaskType.exam_build)) with hE
  set P := ts.filter (fun t => decide (t.task_type = TaskType.timed_practice)) with hP
  have hAnd : A.Nodup := hnd.filter _
  have hEnd : E.Nodup := hnd.filter _
  have hPnd : P.Nodup := hnd.filter _
  have hF1 : List.Sublist (fillLane L1 A [] 0).1 A := by
    simpa using fillLane_sublist L1 A [] 0
  have hFnd : (fillLane L1 A [] 0).1.Nodup := hAnd.sublist hF1
  have hFty : ∀ x ∈ (fillLane L1 A [] 0).1, x.task_type = TaskType.assignment_work :=
    fun x hx => mem_filter_type (hF1.subset hx)
  -- Invariants for the Due-Soon lane and the surviving exam-build pool,
  -- uniform over the two branches of the overflow fill.
  suffices h : ∀ (D pool' : List ScoredTask),
      D.Nodup → pool'.Nodup →
      (∀ x ∈ D, x ∉ pool') →
      (∀ x ∈ D, x.task_type = TaskType.assignment_work ∨
        x.task_type = TaskType.exam_build) →
      (∀ x ∈ pool', x ∈ E) →
      (D ++ ((fillLane L2 (List.insertionSort weaknessDesc pool') [] 0).1 ++
        (fillLane L3 P [] 0).1)).Nodup by
    split_ifs with hsp
    · have hUsub : List.Sublist
          ((E.filter (fun t => decide ((50 : ℚ) < t.urgencyScore))).take
            (5 - (fillLane L1 A [] 0).1.length)) E :=
        (List.take_sublist _ _).trans (List.filter_sublist E)
      have hUnd := hEnd.sublist hUsub
      have hUty : ∀ x ∈ (E.filter (fun t => decide ((50 : ℚ) < t.urgencyScore))).take
          (5 - (fillLane L1 A [] 0).1.length), x.task_type = TaskType.exam_build :=
        fun x hx => mem_filter_type (hUsub.subset hx)
      have hta : ∀ x ∈ (E.filter (fun t => decide ((50 : ℚ) < t.urgencyScore))).take
          (5 - (fillLane L1 A [] 0).1.length), x ∉ (fillLane L1 A [] 0).1 := by
        intro x hx hmem
        have h1 := hUty x hx
        have h2 := hFty x hmem
        rw [h1] at h2
        exact TaskType.noConfusion h2
      have hdis : ∀ x ∈ (fillLane L1 A [] 0).1, x ∉ E := by
        intro x hx hmem
        have h1 := hFty x hx
        have h2 := mem_filter_type hmem
        rw [h1] at h2
        exact TaskType.noConfusion h2
      have hmain := overflowFill_nodup L1
        ((E.filter (fun t => decide ((50 : ℚ) < t.urgencyScore))).take
          (5 - (fillLane L1 A [] 0).1.length))
        (fillLane L1 A [] 0).1 E (fillLane L1 A [] 0).2
        hUnd hFnd hEnd hta hdis
      have hDty : ∀ x ∈ (overflowFill L1
          ((E.filter (fun t => decide ((50 : ℚ) < t.urgencyScore))).take
            (5 - (fillLane L1 A [] 0).1.length))
          (fillLane L1 A [] 0).1 (fillLane L1 A [] 0).2 E).1,
          x.task_type = TaskType.assignment_work ∨
            x.task_type = TaskType.exam_build := by
        intro x hx
        rcases hmain.2.2.1 x hx with hxa | hxu
        · exact Or.inl (hFty x hxa)
        · exact Or.inr (hUty x hxu)
      simpa only [List.flatten_cons, List.flatten_nil, List.append_nil] using
        h _ _ hmain.1.1 hmain.1.2 hmain.2.1 hDty hmain.2.2.2
    · have hdis : ∀ x ∈ (fillLane L1 A [] 0).1, x ∉ E := by
        intro x hx hmem
        have h1 := hFty x hx
        have h2 := mem_filter_type hmem
        rw [h1] at h2
        exact TaskType.noConfusion h2
      simpa only [List.flatten_cons, List.flatten_nil, List.append_nil] using
        h _ _ hFnd hEnd hdis (fun x hx => Or.inl (hFty x hx)) (fun x hx => hx)
  intro D pool' hDnd hpool'nd hDpool hDty hpoolE
  have hSperm := List.perm_insertionSort weaknessDesc pool'
  have hSnd : (List.insertionSort weaknessDesc pool').Nodup :=
    hSperm.nodup_iff.mpr hpool'nd
  have hEB1 : List.Sublist (fillLane L2 (List.insertionSort weaknessDesc pool') [] 0).1
      (List.insertionSort weaknessDesc pool') := by
    simpa using fillLane_sublist L2 (List.insertionSort weaknessDesc pool') [] 0
  have hEBnd := hSnd.sublist hEB1
  have hEBpool : ∀ x ∈ (fillLane L2 (List.insertionSort weaknessDesc pool') [] 0).1,
      x ∈ pool' := fun x hx => hSperm.subset (hEB1.subset hx)
  have hTP1 : List.Sublist (fillLane L3 P [] 0).1 P := by
    simpa using fillLane_sublist L3 P [] 0
  have hTPnd := hPnd.sublist hTP1
  have hTPty : ∀ x ∈ (fillLane L3 P [] 0).1, x.task_type = TaskType.timed_practice :=
    fun x hx => mem_filter_type (hTP1.subset hx)
  rw [List.nodup_append]
  refine ⟨hDnd, ?_, ?_⟩
  · rw [List.nodup_append]
    refine ⟨hEBnd, hTPnd, ?_⟩
    intro x hxe hxt
    have h1 := mem_filter_type (hpoolE x (hEBpool x hxe))
    have h2 := hTPty x hxt
    rw [h1] at h2
    exact TaskType.noConfusion h2
  · intro x hxd hmem
    rcases List.mem_append.mp hmem with hxe | hxt
    · exact hDpool x hxd (hEBpool x hxe)
    · rcases hDty x hxd with h1 | h1 <;>
        { have h2 := hTPty x hxt
          rw [h1] at h2
          exact TaskType.noConfusion h2 }

/-- C6 witness: the distinct demo list (whose exam-build task is consumed
by the overflow fill) yields pairwise-disjoint, duplicate-free lanes. -/
theorem scheduleTasks_no_double_allocation_witness :
    (((scheduleTasks demoScoredTasks 120).lanes.map PlannedLane.tasks).flatten).Nodup :=
  scheduleTasks_no_double_allocation demoScoredTasks 120 (by decide)

end Planner
